import Mathlib

/-!
Verification of the span-properties tail-sampling policy
(`sampling/span_properties_filter.go`): data model, the evaluator and its
construction, embedded shallowly, with theorems about the sampling decision,
construction errors, the timestamp conversion and the no-op hooks.

Go `int64` arithmetic wraps; the embedding uses `Int` together with an
explicit `wrap64` at every operation whose operands come from user data
(timestamp arithmetic).  The span counter (`int`) is modelled without
wrapping: it only ever accumulates lengths of in-memory lists, which cannot
approach `2 ^ 63`.
-/

namespace Sampling

/-- Reduction of an unbounded integer to the signed 64-bit value Go would
hold: wraparound into the interval from `-2 ^ 63` to `2 ^ 63 - 1`. -/
def wrap64 (x : Int) : Int :=
  Int.emod (x + 2 ^ 63) (2 ^ 64) - 2 ^ 63

/-- Wire timestamp (`timestamp.Timestamp`): `Seconds` is an `int64` field and
`Nanos` an `int32` field. -/
structure Timestamp where
  Seconds : Int
  Nanos : Int
  deriving DecidableEq, Repr

/-- Protobuf `TruncatableString`, carrying the span name. -/
structure TruncatableString where
  Value : String
  deriving DecidableEq, Repr

/-- A span (`tracepb.Span`): the fields this policy touches.  `Name`,
`StartTime` and `EndTime` are pointer fields in Go, hence `Option` here. -/
structure Span where
  Name : Option TruncatableString
  StartTime : Option Timestamp
  EndTime : Option Timestamp
  deriving DecidableEq, Repr

/-- One received batch: its list of span pointers (entries may be nil). -/
structure Batch where
  Spans : List (Option Span)
  deriving DecidableEq, Repr

/-- Trace aggregate (`TraceData`): the accumulated batches for one trace.
The mutex is not modelled; `Evaluate` reads the batch list once. -/
structure TraceData where
  ReceivedBatches : List Batch
  deriving DecidableEq, Repr

/-- Opaque 128-bit trace identifier (`pdata.TraceID`). -/
structure TraceID where
  hi : Nat
  lo : Nat
  deriving DecidableEq, Repr

/-- A compiled regular expression, abstracted to its matching behaviour:
the regexp engine is external to this code. -/
def Regexp : Type := String → Bool

/-- `regexp.MatchString` on the abstracted regular expression. -/
def Regexp.MatchString (re : Regexp) (s : String) : Bool := re s

/-- Sampling decision. -/
inductive Decision where
  | NotSampled
  | Sampled
  deriving DecidableEq, Repr

/-- A Go `error` value, abstracted to its message. -/
inductive GoError where
  | message (msg : String)
  deriving DecidableEq, Repr

/-- A Go runtime panic; the only panic this code can raise is a nil-pointer
dereference (reading a field of a nil `Name`, `StartTime` or `EndTime`). -/
inductive GoPanic where
  | nilPointerDereference
  deriving DecidableEq, Repr

/-- The policy evaluator struct `spanPropertiesFilter`.  The `logger` field
(`zap.Logger`) is never consulted by the logic and is modelled as `Unit`. -/
structure spanPropertiesFilter where
  operationRe : Option Regexp
  minDurationMicros : Option Int
  minNumberOfSpans : Option Int
  logger : Unit

/-- `tsToMicros`: `ts.Seconds*1000000 + int64(ts.Nanos/1000)` with Go `int64`
wraparound and Go integer division (truncation toward zero; the `int32`
division by 1000 itself cannot overflow). -/
def tsToMicros (ts : Timestamp) : Int :=
  wrap64 (wrap64 (ts.Seconds * 1000000) + Int.tdiv ts.Nanos 1000)

/-- `NewSpanPropertiesFilter`, step one: compile the operation-name pattern
when one is supplied.  `compile` abstracts `regexp.Compile`. -/
def compileOperationRe (compile : String → Except GoError Regexp) :
    Option String → Except GoError (Option Regexp)
  | none => Except.ok none
  | some pat =>
    match compile pat with
    | Except.error e => Except.error e
    | Except.ok re => Except.ok (some re)

/-- `NewSpanPropertiesFilter`: compiles the pattern (propagating a compile
error), rejects a configuration with no criterion at all, and otherwise
returns the evaluator. -/
def NewSpanPropertiesFilter (compile : String → Except GoError Regexp)
    (logger : Unit) (operationNamePattern : Option String)
    (minDurationMicros : Option Int) (minNumberOfSpans : Option Int) :
    Except GoError spanPropertiesFilter :=
  match compileOperationRe compile operationNamePattern with
  | Except.error e => Except.error e
  | Except.ok operationRe =>
    if operationNamePattern.isNone && minDurationMicros.isNone
        && minNumberOfSpans.isNone then
      Except.error (GoError.message "at least one property must be defined")
    else
      Except.ok ⟨operationRe, minDurationMicros, minNumberOfSpans, logger⟩

/-- `OnLateArrivingSpans`: returns nil; the receiver is returned unchanged to
make the absence of state mutation explicit. -/
def spanPropertiesFilter.OnLateArrivingSpans (df : spanPropertiesFilter)
    (earlyDecision : Decision) (spans : List (Option Span)) :
    Option GoError × spanPropertiesFilter :=
  (none, df)

/-- `EvaluateSecondChance`: unconditionally `NotSampled` with nil error. -/
def spanPropertiesFilter.EvaluateSecondChance (df : spanPropertiesFilter)
    (tid : TraceID) (trace : TraceData) : Decision × Option GoError :=
  (Decision.NotSampled, none)

/-- `OnDroppedSpans`: unconditionally `NotSampled` with nil error. -/
def spanPropertiesFilter.OnDroppedSpans (df : spanPropertiesFilter)
    (tid : TraceID) (trace : TraceData) : Decision × Option GoError :=
  (Decision.NotSampled, none)

/-- The local mutable state of the scanning loop inside `Evaluate`. -/
structure scanState where
  matchingOperationFound : Bool
  spanCount : Int
  minStartTime : Int
  maxEndTime : Int
  deriving DecidableEq, Repr

/-- Loop-entry state of `Evaluate`. -/
def initialScanState : scanState := ⟨false, 0, 0, 0⟩

/-- The operation-name step of the span loop: the name is tested, and hence
dereferenced, only when a pattern is configured and no match has been found
yet; otherwise the match flag passes through unchanged. -/
def spanNameCheck (df : spanPropertiesFilter) (found : Bool) (sp : Span) :
    Except GoPanic Bool :=
  match df.operationRe, found with
  | some re, false =>
    match sp.Name with
    | none => Except.error GoPanic.nilPointerDereference
    | some nm => Except.ok (re.MatchString nm.Value)
  | _, _ => Except.ok found

/-- The body of the inner span loop of `Evaluate` for one span pointer:
nil spans are skipped; the operation-name step runs first; when a minimum
duration is configured the start and end timestamps are dereferenced,
converted, and folded into the window bounds through the `minStartTime == 0`
sentinel test.  A nil dereference surfaces as `Except.error`. -/
def scanSpan (df : spanPropertiesFilter) (st : scanState) (s : Option Span) :
    Except GoPanic scanState :=
  match s with
  | none => Except.ok st
  | some sp =>
    match spanNameCheck df st.matchingOperationFound sp with
    | Except.error p => Except.error p
    | Except.ok found =>
      match df.minDurationMicros with
      | none => Except.ok ⟨found, st.spanCount, st.minStartTime, st.maxEndTime⟩
      | some _ =>
        match sp.StartTime with
        | none => Except.error GoPanic.nilPointerDereference
        | some sts =>
          match sp.EndTime with
          | none => Except.error GoPanic.nilPointerDereference
          | some ets =>
            let startTs := tsToMicros sts
            let endTs := tsToMicros ets
            if st.minStartTime == 0 then
              Except.ok ⟨found, st.spanCount, startTs, endTs⟩
            else
              Except.ok ⟨found, st.spanCount,
                if startTs < st.minStartTime then startTs else st.minStartTime,
                if endTs > st.maxEndTime then endTs else st.maxEndTime⟩

/-- The inner span loop of `Evaluate` over one batch span list. -/
def scanSpans (df : spanPropertiesFilter) :
    scanState → List (Option Span) → Except GoPanic scanState
  | st, [] => Except.ok st
  | st, s :: rest =>
    match scanSpan df st s with
    | Except.error p => Except.error p
    | Except.ok st1 => scanSpans df st1 rest

/-- Length of a list as an `Int`, the type of the Go span counter. -/
def intLen {α : Type} (l : List α) : Int := (l.length : Int)

/-- Processing of one batch in `Evaluate`: the counter takes the full length
of the span list (nil entries included) before the span loop runs. -/
def scanBatch (df : spanPropertiesFilter) (st : scanState) (b : Batch) :
    Except GoPanic scanState :=
  scanSpans df
    ⟨st.matchingOperationFound, st.spanCount + intLen b.Spans,
      st.minStartTime, st.maxEndTime⟩ b.Spans

/-- The outer batch loop of `Evaluate`. -/
def scanBatches (df : spanPropertiesFilter) :
    scanState → List Batch → Except GoPanic scanState
  | st, [] => Except.ok st
  | st, b :: rest =>
    match scanBatch df st b with
    | Except.error p => Except.error p
    | Except.ok st1 => scanBatches df st1 rest

/-- `Evaluate`: scans the snapshot of the received batches and combines the
three condition flags; each flag defaults to true when its criterion is not
configured.  The returned pair mirrors the Go `(Decision, error)` result;
the `error` component is always nil. -/
def spanPropertiesFilter.Evaluate (df : spanPropertiesFilter) (tid : TraceID)
    (trace : TraceData) : Except GoPanic (Decision × Option GoError) :=
  match scanBatches df initialScanState trace.ReceivedBatches with
  | Except.error p => Except.error p
  | Except.ok st =>
    let operationNameConditionMet :=
      match df.operationRe with
      | none => true
      | some _ => st.matchingOperationFound
    let minDurationConditionMet :=
      match df.minDurationMicros with
      | none => true
      | some thr =>
        decide (st.maxEndTime > st.minStartTime)
          && decide (wrap64 (st.maxEndTime - st.minStartTime) ≥ thr)
    let minSpanCountConditionMet :=
      match df.minNumberOfSpans with
      | none => true
      | some k => decide (st.spanCount ≥ k)
    if minDurationConditionMet && operationNameConditionMet
        && minSpanCountConditionMet then
      Except.ok (Decision.Sampled, none)
    else
      Except.ok (Decision.NotSampled, none)

/-! Specification-side predicates: the three sub-criteria recomputed in
isolation from one another, against which the monolithic scanning loop of
`Evaluate` is compared. -/

/-- Whether a span pointer is non-nil and carries a name matched by `re`.
A nil name does not match (the code would instead panic on it; the
comparison theorems therefore assume complete spans). -/
def spanNameMatches (re : Regexp) (s : Option Span) : Bool :=
  match s with
  | none => false
  | some sp =>
    match sp.Name with
    | none => false
    | some nm => re.MatchString nm.Value

/-- Whether some span of the batch matches `re`. -/
def batchHasMatch (re : Regexp) (b : Batch) : Bool :=
  b.Spans.any (spanNameMatches re)

/-- Operation-name criterion: vacuously true when no pattern is configured,
otherwise true iff some non-nil span in some batch has a matching name. -/
def operationNameCriterion (df : spanPropertiesFilter)
    (batches : List Batch) : Bool :=
  match df.operationRe with
  | none => true
  | some re => batches.any (batchHasMatch re)

/-- The span count accumulated by `Evaluate`: the sum of the full span-list
lengths of all batches, nil entries included. -/
def totalSpanSlots (batches : List Batch) : Int :=
  batches.foldl (fun n b => n + intLen b.Spans) 0

/-- The number of non-nil spans across all batches (what the spec calls the
count of non-null spans). -/
def totalNonNilSpans (batches : List Batch) : Int :=
  batches.foldl (fun n b => n + intLen (b.Spans.filter Option.isSome)) 0

/-- Span-count criterion: vacuously true when no threshold is configured,
otherwise true iff the accumulated count reaches the threshold. -/
def spanCountCriterion (df : spanPropertiesFilter)
    (batches : List Batch) : Bool :=
  match df.minNumberOfSpans with
  | none => true
  | some k => decide (totalSpanSlots batches ≥ k)

/-- Microsecond value of an optional timestamp, defaulting a nil pointer to
the zero timestamp; used only under completeness assumptions. -/
def tsToMicrosOpt (o : Option Timestamp) : Int :=
  tsToMicros (o.getD ⟨0, 0⟩)

/-- One step of the duration-window fold, in isolation: inactive when no
duration threshold is configured or on a nil span, otherwise the same
sentinel-guarded update of the window bounds the code performs. -/
def durStep (df : spanPropertiesFilter) (p : Int × Int) (s : Option Span) :
    Int × Int :=
  match df.minDurationMicros, s with
  | none, _ => p
  | some _, none => p
  | some _, some sp =>
    let startTs := tsToMicrosOpt sp.StartTime
    let endTs := tsToMicrosOpt sp.EndTime
    if p.1 == 0 then (startTs, endTs)
    else (if startTs < p.1 then startTs else p.1,
          if endTs > p.2 then endTs else p.2)

/-- The duration window (min start, max end) the scan arrives at. -/
def durBounds (df : spanPropertiesFilter) (batches : List Batch) : Int × Int :=
  batches.foldl (fun p b => b.Spans.foldl (durStep df) p) (0, 0)

/-- Duration criterion: vacuously true when no threshold is configured,
otherwise the sanity guard plus the threshold comparison on the window. -/
def minDurationCriterion (df : spanPropertiesFilter)
    (batches : List Batch) : Bool :=
  match df.minDurationMicros with
  | none => true
  | some thr =>
    decide ((durBounds df batches).2 > (durBounds df batches).1)
      && decide (wrap64 ((durBounds df batches).2 - (durBounds df batches).1)
                   ≥ thr)

/-- Whether one span pointer triggers the configured pattern (false when no
pattern is configured). -/
def matchesSpanB (df : spanPropertiesFilter) (s : Option Span) : Bool :=
  match df.operationRe with
  | none => false
  | some re => spanNameMatches re s

/-- Whether some span of the list triggers the configured pattern. -/
def anyMatchSpans (df : spanPropertiesFilter) (spans : List (Option Span)) :
    Bool :=
  spans.any (matchesSpanB df)

/-- Whether some span of some batch triggers the configured pattern. -/
def anyMatchBatches (df : spanPropertiesFilter) (batches : List Batch) :
    Bool :=
  batches.any (fun b => anyMatchSpans df b.Spans)

/-- A span pointer is complete when it is nil or all three of its pointer
fields are non-nil. -/
def spanComplete (s : Option Span) : Bool :=
  match s with
  | none => true
  | some sp => sp.Name.isSome && sp.StartTime.isSome && sp.EndTime.isSome

/-- A trace is well formed when every span pointer of every batch is
complete; this is exactly the precondition under which `Evaluate` cannot
dereference a nil pointer. -/
def wellFormedTrace (trace : TraceData) : Bool :=
  trace.ReceivedBatches.all (fun b => b.Spans.all spanComplete)

/-! Helper lemmas relating the scanning loop to the isolated criteria. -/

theorem durStep_nil (df : spanPropertiesFilter) (p : Int × Int) :
    durStep df p none = p := by
  cases h : df.minDurationMicros <;> simp [durStep, h]

theorem matchesSpanB_nil (df : spanPropertiesFilter) :
    matchesSpanB df none = false := by
  cases h : df.operationRe <;> simp [matchesSpanB, h, spanNameMatches]

theorem matchesSpanB_some (df : spanPropertiesFilter) (re : Regexp)
    (hre : df.operationRe = some re) :
    matchesSpanB df = spanNameMatches re := by
  funext s
  simp [matchesSpanB, hre]

theorem totalSpanSlots_foldl (batches : List Batch) (c : Int) :
    batches.foldl (fun n b => n + intLen b.Spans) c
      = c + totalSpanSlots batches := by
  induction batches generalizing c with
  | nil => simp [totalSpanSlots]
  | cons b rest ih =>
    simp only [totalSpanSlots, List.foldl_cons] at *
    rw [ih (c + intLen b.Spans), ih (0 + intLen b.Spans)]
    ring

theorem totalSpanSlots_cons (b : Batch) (rest : List Batch) :
    totalSpanSlots (b :: rest) = intLen b.Spans + totalSpanSlots rest := by
  show rest.foldl (fun n b => n + intLen b.Spans) (0 + intLen b.Spans)
    = intLen b.Spans + totalSpanSlots rest
  rw [totalSpanSlots_foldl rest (0 + intLen b.Spans)]
  ring

theorem scanSpans_eq (df : spanPropertiesFilter) (spans : List (Option Span))
    (st : scanState) (h : spans.all spanComplete = true) :
    scanSpans df st spans = Except.ok
      ⟨st.matchingOperationFound || anyMatchSpans df spans,
       st.spanCount,
       (spans.foldl (durStep df) (st.minStartTime, st.maxEndTime)).1,
       (spans.foldl (durStep df) (st.minStartTime, st.maxEndTime)).2⟩ := by
  induction spans generalizing st with
  | nil =>
    simp [scanSpans, anyMatchSpans]
  | cons s rest ih =>
    have hs : spanComplete s = true := by
      simp [List.all_cons] at h; exact h.1
    have hrest : rest.all spanComplete = true := by
      simp [List.all_cons] at h; simpa using h.2
    cases s with
    | none =>
      simp only [scanSpans, scanSpan]
      rw [ih _ hrest]
      simp [anyMatchSpans, matchesSpanB_nil, durStep_nil]
    | some sp =>
      obtain ⟨nm, hnm⟩ : ∃ nm, sp.Name = some nm := by
        rcases h1 : sp.Name with _ | nm
        · simp [spanComplete, h1] at hs
        · exact ⟨nm, rfl⟩
      obtain ⟨sts, hsts⟩ : ∃ sts, sp.StartTime = some sts := by
        rcases h1 : sp.StartTime with _ | sts
        · simp [spanComplete, h1] at hs
        · exact ⟨sts, rfl⟩
      obtain ⟨ets, hets⟩ : ∃ ets, sp.EndTime = some ets := by
        rcases h1 : sp.EndTime with _ | ets
        · simp [spanComplete, h1] at hs
        · exact ⟨ets, rfl⟩
      rcases hre : df.operationRe with _ | re <;>
        rcases hdur : df.minDurationMicros with _ | d <;>
        rcases hflag : st.matchingOperationFound <;>
        simp only [scanSpans, scanSpan, spanNameCheck, hre, hdur, hflag,
          hnm, hsts, hets] <;>
        first
          | (rw [ih _ hrest]
             simp [anyMatchSpans, matchesSpanB, spanNameMatches, hre, hnm,
               durStep, hdur, tsToMicrosOpt, hsts, hets, Bool.or_assoc])
          | (rcases hz : (st.minStartTime == 0) with _ | _ <;>
             simp only [hz, if_true, if_false, Bool.false_eq_true,
               reduceIte] <;>
             rw [ih _ hrest] <;>
             simp [anyMatchSpans, matchesSpanB, spanNameMatches, hre, hnm,
               durStep, hdur, tsToMicrosOpt, hsts, hets, hz, Bool.or_assoc])

theorem scanBatches_eq (df : spanPropertiesFilter) (batches : List Batch)
    (st : scanState)
    (h : batches.all (fun b => b.Spans.all spanComplete) = true) :
    scanBatches df st batches = Except.ok
      ⟨st.matchingOperationFound || anyMatchBatches df batches,
       st.spanCount + totalSpanSlots batches,
       (batches.foldl (fun p b => b.Spans.foldl (durStep df) p)
         (st.minStartTime, st.maxEndTime)).1,
       (batches.foldl (fun p b => b.Spans.foldl (durStep df) p)
         (st.minStartTime, st.maxEndTime)).2⟩ := by
  induction batches generalizing st with
  | nil =>
    simp [scanBatches, anyMatchBatches, totalSpanSlots]
  | cons b rest ih =>
    rw [List.all_cons, Bool.and_eq_true] at h
    have hb : b.Spans.all spanComplete = true := h.1
    have hrest : rest.all (fun b => b.Spans.all spanComplete) = true := h.2
    simp only [scanBatches, scanBatch]
    simp only [scanSpans_eq df b.Spans _ hb]
    simp only [ih _ hrest]
    simp only [anyMatchBatches, List.any_cons, List.foldl_cons,
      totalSpanSlots_cons, Bool.or_assoc, Except.ok.injEq, scanState.mk.injEq]
    repeat' apply And.intro
    all_goals first | rfl | trivial | rw [add_assoc]

/-- The decision of `Evaluate` on a well-formed trace, expressed through the
three sub-criteria computed independently of one another. -/
theorem Evaluate_wellFormed_eq (df : spanPropertiesFilter) (tid : TraceID)
    (trace : TraceData) (h : wellFormedTrace trace = true) :
    df.Evaluate tid trace = Except.ok
      ((if minDurationCriterion df trace.ReceivedBatches
          && operationNameCriterion df trace.ReceivedBatches
          && spanCountCriterion df trace.ReceivedBatches
        then Decision.Sampled else Decision.NotSampled), none) := by
  have hwf : trace.ReceivedBatches.all (fun b => b.Spans.all spanComplete)
      = true := h
  rcases hre : df.operationRe with _ | re <;>
    rcases hd : df.minDurationMicros with _ | thr <;>
    rcases hk : df.minNumberOfSpans with _ | k <;>
    first
      | simp [spanPropertiesFilter.Evaluate,
          scanBatches_eq df trace.ReceivedBatches (scanState.mk false 0 0 0) hwf,
          initialScanState, operationNameCriterion, minDurationCriterion,
          spanCountCriterion, durBounds, hre, hd, hk, anyMatchBatches,
          anyMatchSpans, matchesSpanB_some df re hre, batchHasMatch] <;>
          try (split_ifs <;> rfl)
      | simp [spanPropertiesFilter.Evaluate,
          scanBatches_eq df trace.ReceivedBatches (scanState.mk false 0 0 0) hwf,
          initialScanState, operationNameCriterion, minDurationCriterion,
          spanCountCriterion, durBounds, hre, hd, hk, anyMatchBatches,
          anyMatchSpans, batchHasMatch] <;>
    try (split_ifs <;> rfl)

/-- `wrap64` is the identity on values already inside the signed 64-bit
range. -/
theorem wrap64_eq_self (x : Int) (h1 : -(2 ^ 63) ≤ x) (h2 : x < 2 ^ 63) :
    wrap64 x = x := by
  unfold wrap64
  rw [show Int.emod (x + 2 ^ 63) (2 ^ 64) = x + 2 ^ 63 from
    Int.emod_eq_of_lt (by omega) (by omega)]
  omega

/-- The accumulated span count of a batch list is never negative. -/
theorem totalSpanSlots_nonneg (batches : List Batch) :
    0 ≤ totalSpanSlots batches := by
  induction batches with
  | nil => simp [totalSpanSlots]
  | cons b rest ih =>
    rw [totalSpanSlots_cons]
    have : (0 : Int) ≤ intLen b.Spans := by
      simp [intLen]
    omega

/-- With neither a pattern nor a duration threshold configured, the scan
can never dereference a pointer: it only counts, and the rest of the state
passes through unchanged. -/
theorem scanBatches_no_criteria (df : spanPropertiesFilter)
    (hre : df.operationRe = none) (hd : df.minDurationMicros = none)
    (batches : List Batch) (st : scanState) :
    scanBatches df st batches = Except.ok
      ⟨st.matchingOperationFound, st.spanCount + totalSpanSlots batches,
       st.minStartTime, st.maxEndTime⟩ := by
  have hspan : ∀ s st1, scanSpan df st1 s = Except.ok st1 := by
    intro s st1
    cases s with
    | none => rfl
    | some sp =>
      simp [scanSpan, spanNameCheck, hre, hd]
  have hspans : ∀ spans st1, scanSpans df st1 spans = Except.ok st1 := by
    intro spans
    induction spans with
    | nil => intro st1; rfl
    | cons s rest ih =>
      intro st1
      simp only [scanSpans, hspan s st1]
      exact ih st1
  induction batches generalizing st with
  | nil =>
    simp [scanBatches, totalSpanSlots]
  | cons b rest ih =>
    simp only [scanBatches, scanBatch, hspans]
    rw [ih]
    simp only [totalSpanSlots_cons, Except.ok.injEq, scanState.mk.injEq]
    repeat' apply And.intro
    all_goals first | rfl | trivial | omega

/-- C5: for every trace identifier and trace aggregate, both
EvaluateSecondChance and OnDroppedSpans return the decision NotSampled with
a nil error, independent of the input and of the configuration. -/
theorem c5_second_chance_and_dropped_always_not_sampled
    (df : spanPropertiesFilter) (tid : TraceID) (trace : TraceData) :
    df.EvaluateSecondChance tid trace = (Decision.NotSampled, none) ∧
    df.OnDroppedSpans tid trace = (Decision.NotSampled, none) :=
  ⟨rfl, rfl⟩

/-- The effect of a sequence of OnLateArrivingSpans calls on the policy
instance, threading the receiver through every call. -/
def applyLateCalls (df : spanPropertiesFilter) :
    List (Decision × List (Option Span)) → spanPropertiesFilter
  | [] => df
  | c :: rest => applyLateCalls (df.OnLateArrivingSpans c.1 c.2).2 rest

/-- C6: OnLateArrivingSpans returns a nil error and leaves the policy state
unchanged, so any number of interleaved calls leaves the results of a later
Evaluate or EvaluateSecondChance untouched. -/
theorem c6_on_late_arriving_spans_noop (df : spanPropertiesFilter)
    (d : Decision) (spans : List (Option Span))
    (calls : List (Decision × List (Option Span))) (tid : TraceID)
    (trace : TraceData) :
    (df.OnLateArrivingSpans d spans).1 = none ∧
    applyLateCalls df calls = df ∧
    (applyLateCalls df calls).Evaluate tid trace = df.Evaluate tid trace ∧
    (applyLateCalls df calls).EvaluateSecondChance tid trace
      = df.EvaluateSecondChance tid trace := by
  have hfix : applyLateCalls df calls = df := by
    induction calls with
    | nil => rfl
    | cons c rest ih => exact ih
  exact ⟨rfl, hfix, by rw [hfix], by rw [hfix]⟩

/-- C7: on every valid wire timestamp (protobuf seconds range, non-negative
nanoseconds below one second), tsToMicros returns exactly
seconds times one million plus the floor of nanoseconds over one thousand;
the sub-microsecond remainder is truncated, never rounded up. -/
theorem c7_tsToMicros_exact (ts : Timestamp)
    (hs1 : -62135596800 ≤ ts.Seconds) (hs2 : ts.Seconds ≤ 253402300799)
    (hn1 : 0 ≤ ts.Nanos) (hn2 : ts.Nanos ≤ 999999999) :
    tsToMicros ts = ts.Seconds * 1000000 + ts.Nanos / 1000 := by
  unfold tsToMicros
  rw [Int.tdiv_eq_ediv hn1 (by norm_num)]
  rw [wrap64_eq_self (ts.Seconds * 1000000) (by omega) (by omega)]
  rw [wrap64_eq_self _ (by omega) (by omega)]

/-- Witness for C7 at a concrete timestamp: 1 second plus 2500 nanoseconds
is 1000002 microseconds, the 500 nanosecond remainder truncated. -/
theorem c7_tsToMicros_exact_witness :
    tsToMicros ⟨1, 2500⟩ = 1000002 ∧ (2500 : Int) / 1000 = 2 :=
  ⟨(c7_tsToMicros_exact ⟨1, 2500⟩ (by decide) (by decide) (by decide)
      (by decide)).trans (by decide), by decide⟩

/-- C9: when only the span-count criterion is configured and its threshold
is not positive, Evaluate samples every trace, the empty one included. -/
theorem c9_nonpositive_threshold_samples_everything
    (df : spanPropertiesFilter) (tid : TraceID) (trace : TraceData) (k : Int)
    (hre : df.operationRe = none) (hd : df.minDurationMicros = none)
    (hk : df.minNumberOfSpans = some k) (hkle : k ≤ 0) :
    df.Evaluate tid trace = Except.ok (Decision.Sampled, none) := by
  simp only [spanPropertiesFilter.Evaluate]
  rw [scanBatches_no_criteria df hre hd trace.ReceivedBatches initialScanState]
  have hge : k ≤ totalSpanSlots trace.ReceivedBatches := by
    have := totalSpanSlots_nonneg trace.ReceivedBatches
    omega
  simp [hre, hd, hk, hge, initialScanState]

/-- Witness for C9: threshold zero with no other criterion samples the
empty trace. -/
theorem c9_nonpositive_threshold_samples_everything_witness :
    spanPropertiesFilter.Evaluate ⟨none, none, some 0, ()⟩ ⟨0, 0⟩ ⟨[]⟩
      = Except.ok (Decision.Sampled, none) :=
  c9_nonpositive_threshold_samples_everything ⟨none, none, some 0, ()⟩
    ⟨0, 0⟩ ⟨[]⟩ 0 rfl rfl rfl (by decide)

/-- A microsecond instant as a wire timestamp: zero seconds plus the
microseconds expressed in nanoseconds. -/
def microTs (us : Int) : Timestamp := ⟨0, us * 1000⟩

/-- C1 fixture: the span running from 0 to 100 microseconds. -/
def c1SpanA : Span := ⟨some ⟨"span-a"⟩, some (microTs 0), some (microTs 100)⟩

/-- C1 fixture: the span running from 50 to 300 microseconds. -/
def c1SpanB : Span := ⟨some ⟨"span-b"⟩, some (microTs 50), some (microTs 300)⟩

/-- C1 fixture: the trace whose two batches hold the two spans, in the
order in which the claim lists them. -/
def c1Trace : TraceData := ⟨[⟨[some c1SpanA]⟩, ⟨[some c1SpanB]⟩]⟩

/-- C1 fixture: the same two batches in the opposite order. -/
def c1TraceRev : TraceData := ⟨[⟨[some c1SpanB]⟩, ⟨[some c1SpanA]⟩]⟩

/-- A policy configured with only a minimum-duration threshold. -/
def durationOnlyFilter (thr : Int) : spanPropertiesFilter :=
  ⟨none, some thr, none, ()⟩

/-- C1: on the trace with spans 0..100 and 50..300 the scan does NOT arrive
at the global window 0..300: because the first span starts at 0, the
`minStartTime == 0` sentinel treats the state as still unset when the
second span is scanned and re-initialises both bounds, leaving the window
50..300 of width 250.  A threshold of 300 therefore yields NotSampled,
where the specified max(end) - min(start) semantics would sample; with the
batches reversed the same trace yields Sampled, exposing the order
dependence.  This documents the divergence of the code from the
documented duration semantics. -/
theorem c1_duration_sentinel_bug :
    scanBatches (durationOnlyFilter 300) initialScanState
      c1Trace.ReceivedBatches = Except.ok ⟨false, 2, 50, 300⟩ ∧
    (durationOnlyFilter 300).Evaluate ⟨0, 0⟩ c1Trace
      = Except.ok (Decision.NotSampled, none) ∧
    (durationOnlyFilter 301).Evaluate ⟨0, 0⟩ c1Trace
      = Except.ok (Decision.NotSampled, none) ∧
    (durationOnlyFilter 300).Evaluate ⟨0, 0⟩ c1TraceRev
      = Except.ok (Decision.Sampled, none) := by
  refine ⟨rfl, rfl, rfl, rfl⟩

/-- C2 fixture: a complete span with plausible data. -/
def c2Span : Span := ⟨some ⟨"db.query"⟩, some (microTs 10), some (microTs 20)⟩

/-- C2 fixture: one batch holding one nil span pointer and one real span. -/
def c2Trace : TraceData := ⟨[⟨[none, some c2Span]⟩]⟩

/-- A policy configured with only a minimum span count. -/
def countOnlyFilter (k : Int) : spanPropertiesFilter := ⟨none, none, some k, ()⟩

/-- C2 counterexample: on a batch holding one nil pointer and one real
span, the count the span-count criterion uses is 2, not the number 1 of
non-nil spans: the batch length is added before nil spans are skipped, so
a threshold of 2 samples a trace with a single real span. -/
theorem c2_nil_spans_affect_count_counterexample :
    totalNonNilSpans c2Trace.ReceivedBatches = 1 ∧
    scanBatches (countOnlyFilter 2) initialScanState c2Trace.ReceivedBatches
      = Except.ok ⟨false, 2, 0, 0⟩ ∧
    (countOnlyFilter 2).Evaluate ⟨0, 0⟩ c2Trace
      = Except.ok (Decision.Sampled, none) := by
  refine ⟨rfl, rfl, rfl⟩

/-- C2 amended: nil spans are skipped by the span loop without a crash, but
the count used by the span-count criterion is the total number of span
slots across all batches, nil entries included. -/
theorem c2_nil_spans_skipped_but_counted (df : spanPropertiesFilter)
    (tid : TraceID) (trace : TraceData)
    (h : wellFormedTrace trace = true) :
    (∀ st, scanSpan df st none = Except.ok st) ∧
    (∃ st, scanBatches df initialScanState trace.ReceivedBatches
        = Except.ok st ∧
      st.spanCount = totalSpanSlots trace.ReceivedBatches) ∧
    (∃ d, df.Evaluate tid trace = Except.ok (d, none)) := by
  refine ⟨fun st => rfl, ?_, ?_⟩
  · refine ⟨_, scanBatches_eq df trace.ReceivedBatches initialScanState h, ?_⟩
    simp [initialScanState]
  · exact ⟨_, Evaluate_wellFormed_eq df tid trace h⟩

/-- Witness for the amended C2 at the concrete nil-bearing trace. -/
theorem c2_nil_spans_skipped_but_counted_witness :
    wellFormedTrace c2Trace = true ∧
    (∃ st, scanBatches (countOnlyFilter 2) initialScanState
        c2Trace.ReceivedBatches = Except.ok st ∧
      st.spanCount = totalSpanSlots c2Trace.ReceivedBatches) :=
  ⟨by decide,
   (c2_nil_spans_skipped_but_counted (countOnlyFilter 2) ⟨0, 0⟩ c2Trace
     (by decide)).2.1⟩

/-- C4: construction fails with the fixed configuration error exactly when
all three criteria are absent, fails with the underlying compile error
exactly when a supplied pattern does not compile, and succeeds with an
evaluator carrying the given criteria in every other case. -/
theorem c4_construction_error_characterization
    (compile : String → Except GoError Regexp) (logger : Unit)
    (pat : Option String) (mdur mspan : Option Int) :
    (pat = none ∧ mdur = none ∧ mspan = none →
      NewSpanPropertiesFilter compile logger pat mdur mspan
        = Except.error
            (GoError.message "at least one property must be defined")) ∧
    (∀ p e, pat = some p → compile p = Except.error e →
      NewSpanPropertiesFilter compile logger pat mdur mspan
        = Except.error e) ∧
    (¬(pat = none ∧ mdur = none ∧ mspan = none) →
      (∀ p, pat = some p → ∃ re, compile p = Except.ok re) →
      ∃ df, NewSpanPropertiesFilter compile logger pat mdur mspan
          = Except.ok df ∧
        df.minDurationMicros = mdur ∧ df.minNumberOfSpans = mspan ∧
        (pat = none → df.operationRe = none) ∧
        (∀ p re, pat = some p → compile p = Except.ok re →
          df.operationRe = some re)) := by
  refine ⟨?_, ?_, ?_⟩
  · rintro ⟨rfl, rfl, rfl⟩
    rfl
  · rintro p e rfl hc
    simp [NewSpanPropertiesFilter, compileOperationRe, hc]
  · rintro hnotall hok
    rcases hpat : pat with _ | p
    · subst hpat
      rcases mdur with _ | d <;> rcases mspan with _ | k
      · exact absurd ⟨rfl, rfl, rfl⟩ hnotall
      · exact ⟨⟨none, none, some k, logger⟩, rfl, rfl, rfl, fun _ => rfl,
          fun p re hp _ => by simp at hp⟩
      · exact ⟨⟨none, some d, none, logger⟩, rfl, rfl, rfl, fun _ => rfl,
          fun p re hp _ => by simp at hp⟩
      · exact ⟨⟨none, some d, some k, logger⟩, rfl, rfl, rfl, fun _ => rfl,
          fun p re hp _ => by simp at hp⟩
    · obtain ⟨re, hre⟩ := hok p hpat
      subst hpat
      refine ⟨⟨some re, mdur, mspan, logger⟩, ?_, rfl, rfl,
        fun hc => by simp at hc, fun p2 re2 hp2 hre2 => ?_⟩
      · simp [NewSpanPropertiesFilter, compileOperationRe, hre]
      · simp only [Option.some.injEq] at hp2
        subst hp2
        rw [hre] at hre2
        simp only [Except.ok.injEq] at hre2
        rw [hre2]

/-- A regular expression accepting everything, for concrete instances. -/
def reAny : Regexp := fun _ => true

/-- A compile stub that succeeds on every pattern. -/
def compileOk : String → Except GoError Regexp := fun _ => Except.ok reAny

/-- A compile stub that fails on every pattern. -/
def compileBad : String → Except GoError Regexp :=
  fun p => Except.error (GoError.message p)

/-- Witness for C4 at concrete configurations: the all-absent configuration
is rejected with the fixed message, a failing pattern propagates its
compile error, and a count-only configuration constructs an evaluator. -/
theorem c4_construction_error_characterization_witness :
    NewSpanPropertiesFilter compileOk () none none none
      = Except.error
          (GoError.message "at least one property must be defined") ∧
    NewSpanPropertiesFilter compileBad () (some "([") none none
      = Except.error (GoError.message "([") ∧
    (∃ df, NewSpanPropertiesFilter compileOk () none none (some 3)
        = Except.ok df ∧
      df.minDurationMicros = none ∧ df.minNumberOfSpans = some 3 ∧
      (none = (none : Option String) → df.operationRe = none) ∧
      (∀ p re, (none : Option String) = some p →
        compileOk p = Except.ok re → df.operationRe = some re)) :=
  ⟨(c4_construction_error_characterization compileOk () none none none).1
     ⟨rfl, rfl, rfl⟩,
   (c4_construction_error_characterization compileBad ()
     (some "([") none none).2.1 "([" (GoError.message "([") rfl rfl,
   (c4_construction_error_characterization compileOk ()
     none none (some 3)).2.2 (by simp) (fun p hp => by simp at hp)⟩

/-- C3: on a well-formed trace, Evaluate returns Sampled exactly when every
configured sub-criterion is satisfied — the operation-name criterion by at
least one non-nil span with a matching name in any batch (OR across spans),
the duration criterion by the window check, the span-count criterion by the
accumulated count reaching the threshold — an unconfigured criterion being
vacuously satisfied (AND across distinct criteria); in every other case it
returns NotSampled. -/
theorem c3_sampled_iff_all_criteria (df : spanPropertiesFilter)
    (tid : TraceID) (trace : TraceData) (h : wellFormedTrace trace = true) :
    (df.Evaluate tid trace = Except.ok (Decision.Sampled, none) ↔
      ((∀ re, df.operationRe = some re →
          ∃ b ∈ trace.ReceivedBatches, ∃ s ∈ b.Spans,
            spanNameMatches re s = true) ∧
       minDurationCriterion df trace.ReceivedBatches = true ∧
       (∀ k, df.minNumberOfSpans = some k →
         k ≤ totalSpanSlots trace.ReceivedBatches))) ∧
    (df.Evaluate tid trace = Except.ok (Decision.Sampled, none) ∨
      df.Evaluate tid trace = Except.ok (Decision.NotSampled, none)) := by
  have heval := Evaluate_wellFormed_eq df tid trace h
  have hop : operationNameCriterion df trace.ReceivedBatches = true ↔
      (∀ re, df.operationRe = some re →
        ∃ b ∈ trace.ReceivedBatches, ∃ s ∈ b.Spans,
          spanNameMatches re s = true) := by
    rcases hre : df.operationRe with _ | re
    · simp [operationNameCriterion, hre]
    · simp [operationNameCriterion, hre, batchHasMatch, List.any_eq_true]
  have hcnt : spanCountCriterion df trace.ReceivedBatches = true ↔
      (∀ k, df.minNumberOfSpans = some k →
        k ≤ totalSpanSlots trace.ReceivedBatches) := by
    rcases hk : df.minNumberOfSpans with _ | k <;>
      simp [spanCountCriterion, hk]
  have hkey : df.Evaluate tid trace = Except.ok (Decision.Sampled, none) ↔
      (minDurationCriterion df trace.ReceivedBatches
        && operationNameCriterion df trace.ReceivedBatches
        && spanCountCriterion df trace.ReceivedBatches) = true := by
    rw [heval]
    split_ifs with hcond
    · simp [hcond]
    · simp [hcond]
  constructor
  · rw [hkey, Bool.and_eq_true, Bool.and_eq_true, hop, hcnt]
    tauto
  · rw [heval]
    split_ifs <;> simp

/-- Witness for C3 at a concrete policy and trace: a pattern-only policy
matching the second of two spans samples the trace, and the matching span
exists. -/
theorem c3_sampled_iff_all_criteria_witness :
    wellFormedTrace c1Trace = true ∧
    ((spanPropertiesFilter.Evaluate
        ⟨some (fun s => s == "span-b"), none, none, ()⟩ ⟨0, 0⟩ c1Trace
          = Except.ok (Decision.Sampled, none)) ↔
      ((∀ re, (⟨some (fun s => s == "span-b"), none, none, ()⟩ :
            spanPropertiesFilter).operationRe = some re →
          ∃ b ∈ c1Trace.ReceivedBatches, ∃ s ∈ b.Spans,
            spanNameMatches re s = true) ∧
       minDurationCriterion
         ⟨some (fun s => s == "span-b"), none, none, ()⟩
         c1Trace.ReceivedBatches = true ∧
       (∀ k, (⟨some (fun s => s == "span-b"), none, none, ()⟩ :
            spanPropertiesFilter).minNumberOfSpans = some k →
         k ≤ totalSpanSlots c1Trace.ReceivedBatches))) :=
  ⟨by decide,
   (c3_sampled_iff_all_criteria
     ⟨some (fun s => s == "span-b"), none, none, ()⟩ ⟨0, 0⟩ c1Trace
     (by decide)).1⟩

/-! Helper lemmas for the nil-dereference characterisation. -/

theorem scanSpan_nilName_error (df : spanPropertiesFilter) (re : Regexp)
    (hre : df.operationRe = some re) (st : scanState) (sp : Span)
    (hflag : st.matchingOperationFound = false) (hname : sp.Name = none) :
    scanSpan df st (some sp) = Except.error GoPanic.nilPointerDereference := by
  simp [scanSpan, spanNameCheck, hre, hflag, hname]

theorem scanSpan_nilTime_error (df : spanPropertiesFilter) (d : Int)
    (hd : df.minDurationMicros = some d) (st : scanState) (sp : Span)
    (htime : sp.StartTime = none ∨ sp.EndTime = none) :
    scanSpan df st (some sp) = Except.error GoPanic.nilPointerDereference := by
  rcases hnc : spanNameCheck df st.matchingOperationFound sp with p | found
  · cases p
    simp [scanSpan, hnc]
  · rcases htime with hst | het
    · simp [scanSpan, hnc, hd, hst]
    · rcases hst : sp.StartTime with _ | sts
      · simp [scanSpan, hnc, hd, hst]
      · simp [scanSpan, hnc, hd, hst, het]

theorem scanSpan_ok_flag_false (df : spanPropertiesFilter) (re : Regexp)
    (hre : df.operationRe = some re) (st st1 : scanState) (s : Option Span)
    (hflag : st.matchingOperationFound = false)
    (hnm : ∀ sp, s = some sp → ∀ nm, sp.Name = some nm →
      re.MatchString nm.Value = false)
    (hok : scanSpan df st s = Except.ok st1) :
    st1.matchingOperationFound = false := by
  cases s with
  | none =>
    simp only [scanSpan, Except.ok.injEq] at hok
    rw [← hok]
    exact hflag
  | some sp =>
    rcases hname : sp.Name with _ | nm
    · rw [scanSpan_nilName_error df re hre st sp hflag hname] at hok
      exact absurd hok (by simp)
    · have hm := hnm sp rfl nm hname
      rcases hd : df.minDurationMicros with _ | d
      · simp only [scanSpan, spanNameCheck, hre, hflag, hname, hd, hm,
          Except.ok.injEq] at hok
        rw [← hok]
      · rcases hst : sp.StartTime with _ | sts
        · rw [scanSpan_nilTime_error df d hd st sp (Or.inl hst)] at hok
          exact absurd hok (by simp)
        · rcases het : sp.EndTime with _ | ets
          · rw [scanSpan_nilTime_error df d hd st sp (Or.inr het)] at hok
            exact absurd hok (by simp)
          · rcases hz : (st.minStartTime == 0) with _ | _ <;>
              simp only [scanSpan, spanNameCheck, hre, hflag, hname, hd, hm,
                hst, het, hz, Bool.false_eq_true, reduceIte,
                Except.ok.injEq] at hok <;>
              rw [← hok]

theorem scanSpans_ok_flag_false (df : spanPropertiesFilter) (re : Regexp)
    (hre : df.operationRe = some re) (spans : List (Option Span)) :
    ∀ st st1, st.matchingOperationFound = false →
    (∀ s ∈ spans, ∀ sp, s = some sp → ∀ nm, sp.Name = some nm →
      re.MatchString nm.Value = false) →
    scanSpans df st spans = Except.ok st1 →
    st1.matchingOperationFound = false := by
  induction spans with
  | nil =>
    intro st st1 hflag _ hok
    simp only [scanSpans, Except.ok.injEq] at hok
    rw [← hok]
    exact hflag
  | cons s rest ih =>
    intro st st1 hflag hnm hok
    rcases hsc : scanSpan df st s with p | st2
    · simp [scanSpans, hsc] at hok
    · have hflag2 : st2.matchingOperationFound = false :=
        scanSpan_ok_flag_false df re hre st st2 s hflag
          (fun sp hs => hnm s (List.mem_cons_self s rest) sp hs) hsc
      simp only [scanSpans, hsc] at hok
      exact ih st2 st1 hflag2
        (fun s2 hs2 => hnm s2 (List.mem_cons_of_mem s hs2)) hok

theorem scanSpans_error_of_nilName (df : spanPropertiesFilter) (re : Regexp)
    (hre : df.operationRe = some re) (spans : List (Option Span)) :
    ∀ st, st.matchingOperationFound = false →
    (∀ s ∈ spans, ∀ sp, s = some sp → ∀ nm, sp.Name = some nm →
      re.MatchString nm.Value = false) →
    (∃ s ∈ spans, ∃ sp, s = some sp ∧ sp.Name = none) →
    scanSpans df st spans = Except.error GoPanic.nilPointerDereference := by
  induction spans with
  | nil =>
    intro st _ _ hex
    simp at hex
  | cons s rest ih =>
    intro st hflag hnm hex
    obtain ⟨s0, hs0mem, sp0, hs0, hname0⟩ := hex
    rcases hsc : scanSpan df st s with p | st1
    · cases p
      simp [scanSpans, hsc]
    · rcases List.mem_cons.mp hs0mem with heq | hmem
      · subst heq
        rw [hs0] at hsc
        rw [scanSpan_nilName_error df re hre st sp0 hflag hname0] at hsc
        exact absurd hsc (by simp)
      · have hflag1 : st1.matchingOperationFound = false :=
          scanSpan_ok_flag_false df re hre st st1 s hflag
            (fun sp hs => hnm s (List.mem_cons_self s rest) sp hs) hsc
        simp only [scanSpans, hsc]
        exact ih st1 hflag1
          (fun s2 hs2 => hnm s2 (List.mem_cons_of_mem s hs2))
          ⟨s0, hmem, sp0, hs0, hname0⟩

theorem scanBatches_error_of_nilName (df : spanPropertiesFilter)
    (re : Regexp) (hre : df.operationRe = some re) (batches : List Batch) :
    ∀ st, st.matchingOperationFound = false →
    (∀ b ∈ batches, ∀ s ∈ b.Spans, ∀ sp, s = some sp →
      ∀ nm, sp.Name = some nm → re.MatchString nm.Value = false) →
    (∃ b ∈ batches, ∃ s ∈ b.Spans, ∃ sp, s = some sp ∧ sp.Name = none) →
    scanBatches df st batches
      = Except.error GoPanic.nilPointerDereference := by
  induction batches with
  | nil =>
    intro st _ _ hex
    simp at hex
  | cons b rest ih =>
    intro st hflag hnm hex
    obtain ⟨b0, hb0mem, s0, hs0mem, sp0, hs0, hname0⟩ := hex
    rcases List.mem_cons.mp hb0mem with heq | hmem
    · subst heq
      have herr := scanSpans_error_of_nilName df re hre b0.Spans
        ⟨st.matchingOperationFound, st.spanCount + intLen b0.Spans,
          st.minStartTime, st.maxEndTime⟩ hflag
        (fun s hs => hnm b0 (List.mem_cons_self b0 rest) s hs)
        ⟨s0, hs0mem, sp0, hs0, hname0⟩
      simp [scanBatches, scanBatch, herr]
    · rcases hsb : scanBatch df st b with p | st1
      · cases p
        simp [scanBatches, hsb]
      · have hflag1 : st1.matchingOperationFound = false :=
          scanSpans_ok_flag_false df re hre b.Spans
            ⟨st.matchingOperationFound, st.spanCount + intLen b.Spans,
              st.minStartTime, st.maxEndTime⟩ st1 hflag
            (fun s hs => hnm b (List.mem_cons_self b rest) s hs) hsb
        simp only [scanBatches, hsb]
        exact ih st1 hflag1
          (fun b2 hb2 => hnm b2 (List.mem_cons_of_mem b hb2))
          ⟨b0, hmem, s0, hs0mem, sp0, hs0, hname0⟩

theorem scanSpans_error_of_nilTime (df : spanPropertiesFilter) (d : Int)
    (hd : df.minDurationMicros = some d) (spans : List (Option Span)) :
    ∀ st,
    (∃ s ∈ spans, ∃ sp, s = some sp ∧
      (sp.StartTime = none ∨ sp.EndTime = none)) →
    scanSpans df st spans = Except.error GoPanic.nilPointerDereference := by
  induction spans with
  | nil =>
    intro st hex
    simp at hex
  | cons s rest ih =>
    intro st hex
    obtain ⟨s0, hs0mem, sp0, hs0, htime0⟩ := hex
    rcases hsc : scanSpan df st s with p | st1
    · cases p
      simp [scanSpans, hsc]
    · rcases List.mem_cons.mp hs0mem with heq | hmem
      · subst heq
        rw [hs0] at hsc
        rw [scanSpan_nilTime_error df d hd st sp0 htime0] at hsc
        exact absurd hsc (by simp)
      · simp only [scanSpans, hsc]
        exact ih st1 ⟨s0, hmem, sp0, hs0, htime0⟩

theorem scanBatches_error_of_nilTime (df : spanPropertiesFilter) (d : Int)
    (hd : df.minDurationMicros = some d) (batches : List Batch) :
    ∀ st,
    (∃ b ∈ batches, ∃ s ∈ b.Spans, ∃ sp, s = some sp ∧
      (sp.StartTime = none ∨ sp.EndTime = none)) →
    scanBatches df st batches
      = Except.error GoPanic.nilPointerDereference := by
  induction batches with
  | nil =>
    intro st hex
    simp at hex
  | cons b rest ih =>
    intro st hex
    obtain ⟨b0, hb0mem, s0, hs0mem, sp0, hs0, htime0⟩ := hex
    rcases List.mem_cons.mp hb0mem with heq | hmem
    · subst heq
      have herr := scanSpans_error_of_nilTime df d hd b0.Spans
        ⟨st.matchingOperationFound, st.spanCount + intLen b0.Spans,
          st.minStartTime, st.maxEndTime⟩ ⟨s0, hs0mem, sp0, hs0, htime0⟩
      simp [scanBatches, scanBatch, herr]
    · rcases hsb : scanBatch df st b with p | st1
      · cases p
        simp [scanBatches, hsb]
      · simp only [scanBatches, hsb]
        exact ih st1 ⟨b0, hmem, s0, hs0mem, sp0, hs0, htime0⟩

/-- C8 fixture: a pattern accepting exactly the name alpha. -/
def reAlpha : Regexp := fun s => s == "alpha"

/-- C8 fixture: a pattern-only policy using reAlpha. -/
def c8Filter : spanPropertiesFilter := ⟨some reAlpha, none, none, ()⟩

/-- C8 fixture: a complete span named alpha. -/
def c8SpanNamed : Span :=
  ⟨some ⟨"alpha"⟩, some (microTs 0), some (microTs 10)⟩

/-- C8 fixture: a non-nil span whose Name pointer is nil. -/
def c8SpanNilName : Span := ⟨none, some (microTs 0), some (microTs 10)⟩

/-- C8 fixture: the matching span precedes the nil-named span. -/
def c8Trace : TraceData := ⟨[⟨[some c8SpanNamed, some c8SpanNilName]⟩]⟩

/-- C8 counterexample: with a pattern configured and a non-nil span whose
Name is nil present in the trace, Evaluate does NOT crash when an earlier
span already matched the pattern: the match flag short-circuits the name
test, so the nil Name is never dereferenced and the trace is sampled. -/
theorem c8_nilName_not_always_crash_counterexample :
    c8Filter.operationRe.isSome = true ∧
    (some c8SpanNilName) ∈ (⟨[some c8SpanNamed, some c8SpanNilName]⟩ :
      Batch).Spans ∧
    c8SpanNilName.Name = none ∧
    c8Filter.Evaluate ⟨0, 0⟩ c8Trace
      = Except.ok (Decision.Sampled, none) :=
  ⟨rfl, by decide, rfl, rfl⟩

/-- C8 amended: with a pattern configured, a trace holding a non-nil span
with nil Name crashes Evaluate with a nil-pointer dereference provided no
non-nil span of the trace carries a name matching the pattern (once a match
is found, later names are no longer dereferenced); with a duration
threshold configured, a non-nil span with nil StartTime or EndTime always
crashes Evaluate; and conversely, on a well-formed trace (every non-nil
span carrying Name, StartTime and EndTime) Evaluate is total: it returns a
decision with a nil error. -/
theorem c8_nil_dereference_characterization :
    (∀ (df : spanPropertiesFilter) (tid : TraceID) (trace : TraceData)
      (re : Regexp), df.operationRe = some re →
      (∀ b ∈ trace.ReceivedBatches, ∀ s ∈ b.Spans, ∀ sp, s = some sp →
        ∀ nm, sp.Name = some nm → re.MatchString nm.Value = false) →
      (∃ b ∈ trace.ReceivedBatches, ∃ s ∈ b.Spans, ∃ sp, s = some sp ∧
        sp.Name = none) →
      df.Evaluate tid trace
        = Except.error GoPanic.nilPointerDereference) ∧
    (∀ (df : spanPropertiesFilter) (tid : TraceID) (trace : TraceData)
      (d : Int), df.minDurationMicros = some d →
      (∃ b ∈ trace.ReceivedBatches, ∃ s ∈ b.Spans, ∃ sp, s = some sp ∧
        (sp.StartTime = none ∨ sp.EndTime = none)) →
      df.Evaluate tid trace
        = Except.error GoPanic.nilPointerDereference) ∧
    (∀ (df : spanPropertiesFilter) (tid : TraceID) (trace : TraceData),
      wellFormedTrace trace = true →
      ∃ dec, df.Evaluate tid trace = Except.ok (dec, none)) := by
  refine ⟨?_, ?_, ?_⟩
  · intro df tid trace re hre hnm hex
    have herr := scanBatches_error_of_nilName df re hre
      trace.ReceivedBatches initialScanState rfl hnm hex
    simp [spanPropertiesFilter.Evaluate, herr]
  · intro df tid trace d hd hex
    have herr := scanBatches_error_of_nilTime df d hd
      trace.ReceivedBatches initialScanState hex
    simp [spanPropertiesFilter.Evaluate, herr]
  · intro df tid trace h
    exact ⟨_, Evaluate_wellFormed_eq df tid trace h⟩

/-- C8 fixture: a pattern rejecting every name. -/
def reNone : Regexp := fun _ => false

/-- Witness for the amended C8: a never-matching pattern with a nil-named
span crashes; a duration threshold with a nil StartTime crashes; the
well-formed two-span trace evaluates to a decision. -/
theorem c8_nil_dereference_characterization_witness :
    spanPropertiesFilter.Evaluate ⟨some reNone, none, none, ()⟩ ⟨0, 0⟩
      ⟨[⟨[some c8SpanNilName]⟩]⟩
      = Except.error GoPanic.nilPointerDereference ∧
    spanPropertiesFilter.Evaluate ⟨none, some 1, none, ()⟩ ⟨0, 0⟩
      ⟨[⟨[some ⟨some ⟨"x"⟩, none, some (microTs 10)⟩]⟩]⟩
      = Except.error GoPanic.nilPointerDereference ∧
    (∃ dec, spanPropertiesFilter.Evaluate ⟨none, none, some 1, ()⟩ ⟨0, 0⟩
      c1Trace = Except.ok (dec, none)) :=
  ⟨c8_nil_dereference_characterization.1 ⟨some reNone, none, none, ()⟩
     ⟨0, 0⟩ ⟨[⟨[some c8SpanNilName]⟩]⟩ reNone rfl
     (by intro b hb s hs sp hsp nm hnm; simp [reNone, Regexp.MatchString])
     ⟨⟨[some c8SpanNilName]⟩, by simp, some c8SpanNilName, by simp,
       c8SpanNilName, rfl, rfl⟩,
   c8_nil_dereference_characterization.2.1 ⟨none, some 1, none, ()⟩
     ⟨0, 0⟩ ⟨[⟨[some ⟨some ⟨"x"⟩, none, some (microTs 10)⟩]⟩]⟩ 1 rfl
     ⟨⟨[some ⟨some ⟨"x"⟩, none, some (microTs 10)⟩]⟩, by simp,
       some ⟨some ⟨"x"⟩, none, some (microTs 10)⟩, by simp,
       ⟨some ⟨"x"⟩, none, some (microTs 10)⟩, rfl, Or.inl rfl⟩,
   c8_nil_dereference_characterization.2.2 ⟨none, none, some 1, ()⟩
     ⟨0, 0⟩ c1Trace (by decide)⟩

end Sampling
